import Mathlib

/-!
Shallow embedding of the safety-filtering and robot-adapter core of the
`lerobot_piper3` GUI (sources: `lerobot_gui/services/safety_filter.py`,
`lerobot_gui/adapters/robots/generic_adapter.py`,
`lerobot_gui/adapters/robots/piper_adapter.py`,
`src/lerobot/robots/piper_follower/piper_follower.py`).

Python `float` values are modelled by `ℚ`; Python `dict[str, float]` by
association lists with distinct keys (`List (String × ℚ)`), looked up by
string equality as a Python dict lookup is.
-/

/-- An action / state mapping: Python `dict[str, float]`. -/
abbrev ActionMap := List (String × ℚ)

/-- Python dict lookup on an association list (first binding wins, which
agrees with dict semantics since dict keys are distinct). -/
def lookupKV {α : Type} (k : String) : List (String × α) → Option α
  | [] => none
  | (k', v) :: rest => if k' = k then some v else lookupKV k rest

/-- Removal of every occurrence of `".pos"` from a character list, scanning
left to right without overlap — the behaviour of the Python call
`key.replace(".pos", "")` for this fixed pattern. -/
def stripDotPos : List Char → List Char
  | '.' :: 'p' :: 'o' :: 's' :: rest => stripDotPos rest
  | c :: rest => c :: stripDotPos rest
  | [] => []

/-- Model of `key.replace(".pos", "")` on strings. -/
def replaceDotPos (s : String) : String := ⟨stripDotPos s.data⟩

/-- The Python builtin `max` on two numbers. -/
def pymax (a b : ℚ) : ℚ := if a < b then b else a

/-- The Python builtin `min` on two numbers. -/
def pymin (a b : ℚ) : ℚ := if b < a then b else a

/-- The Python builtin `abs` on a number. -/
def pyabs (q : ℚ) : ℚ := if q < 0 then -q else q

unseal Rat.add Rat.sub Rat.mul Rat.inv

/-! ## SafetyFilter (`lerobot_gui/services/safety_filter.py`)

`time.time()` is modelled by an explicit `now : ℚ` argument to the
operations that read the clock. -/

/-- The mutable state and configuration of `SafetyFilter`. -/
structure SafetyFilter where
  /-- Python `joint_limits`: joint name ↦ `(lo, hi)` operating range. -/
  joint_limits : List (String × ℚ × ℚ)
  /-- Python `max_velocity`: maximal change per step. -/
  max_velocity : ℚ
  /-- Python `deadzone`: changes smaller than this repeat the previous value. -/
  deadzone : ℚ
  /-- Python `timeout_ms` for the watchdog. -/
  timeout_ms : ℚ
  /-- Python `_last_action`: per-channel last emitted value. -/
  last_action : ActionMap
  /-- Python `_last_input_time`. -/
  last_input_time : ℚ
  /-- Python `_enabled` (set to `True` in `__init__` and never written elsewhere). -/
  enabled : Bool
  /-- Python `_e_stopped`. -/
  e_stopped : Bool
deriving DecidableEq

/-- Constructor `SafetyFilter.__init__`. -/
def SafetyFilter.init (joint_limits : List (String × ℚ × ℚ)) (max_velocity deadzone timeout_ms : ℚ) (now : ℚ) : SafetyFilter :=
  { joint_limits := joint_limits
    max_velocity := max_velocity
    deadzone := deadzone
    timeout_ms := timeout_ms
    last_action := []
    last_input_time := now
    enabled := true
    e_stopped := false }

/-- Method `set_e_stop`. -/
def SafetyFilter.set_e_stop (f : SafetyFilter) (active : Bool) : SafetyFilter :=
  { f with e_stopped := active }

/-- Step 1 of the `filter_action` loop body: clamp to joint limits
(`value = max(lo, min(hi, value))` when `key.replace(".pos","")` has
configured limits). -/
def SafetyFilter.clampValue (f : SafetyFilter) (key : String) (value : ℚ) : ℚ :=
  match lookupKV (replaceDotPos key) f.joint_limits with
  | some lohi => pymax lohi.1 (pymin lohi.2 value)
  | none => value

/-- Step 2 of the `filter_action` loop body: velocity limit against the
last emitted value for `key`. -/
def SafetyFilter.velValue (f : SafetyFilter) (key : String) (value : ℚ) : ℚ :=
  match lookupKV key f.last_action with
  | some last =>
      if pyabs (value - last) > f.max_velocity then
        last + f.max_velocity * (if value - last > 0 then 1 else -1)
      else value
  | none => value

/-- Step 3 of the `filter_action` loop body: dead zone against the last
emitted value for `key`. -/
def SafetyFilter.dzValue (f : SafetyFilter) (key : String) (value : ℚ) : ℚ :=
  match lookupKV key f.last_action with
  | some last => if pyabs (value - last) < f.deadzone then last else value
  | none => value

/-- The full `filter_action` loop body for one `(key, value)` item. -/
def SafetyFilter.filterValue (f : SafetyFilter) (key : String) (value : ℚ) : ℚ :=
  f.dzValue key (f.velValue key (f.clampValue key value))

/-- Method `filter_action`. Returns the optional filtered action (`None` when
blocked by E-STOP) together with the updated filter state. -/
def SafetyFilter.filter_action (f : SafetyFilter) (now : ℚ) (action : ActionMap) :
    Option ActionMap × SafetyFilter :=
  if f.e_stopped then (none, f)
  else if f.enabled = false then (some action, f)
  else
    let filtered := action.map fun kv => (kv.1, f.filterValue kv.1 kv.2)
    (some filtered, { f with last_input_time := now, last_action := filtered })

/-- Method `check_timeout`. -/
def SafetyFilter.check_timeout (f : SafetyFilter) (now : ℚ) : Bool :=
  (now - f.last_input_time) * 1000 > f.timeout_ms

/-- Method `reset`. -/
def SafetyFilter.reset (f : SafetyFilter) (now : ℚ) : SafetyFilter :=
  { f with last_action := [], last_input_time := now, e_stopped := false }

/-- The operations a client can perform on a `SafetyFilter` between two
observations; clock reads are made explicit. -/
inductive FilterOp where
  | filter (now : ℚ) (action : ActionMap)
  | setEStop (active : Bool)
  | reset (now : ℚ)

/-- Effect of one operation on the filter state. -/
def SafetyFilter.step (f : SafetyFilter) : FilterOp → SafetyFilter
  | .filter now a => (f.filter_action now a).2
  | .setEStop b => f.set_e_stop b
  | .reset now => f.reset now

/-- Effect of a sequence of operations. -/
def SafetyFilter.run (f : SafetyFilter) (ops : List FilterOp) : SafetyFilter :=
  ops.foldl SafetyFilter.step f

/-! ### Configuration well-formedness and the range invariant -/

/-- A well-formed configuration: the per-tick velocity limit is a
nonnegative magnitude and every configured operating range is nonempty. -/
def SafetyFilter.goodConfig (f : SafetyFilter) : Prop :=
  0 ≤ f.max_velocity ∧ ∀ p ∈ f.joint_limits, p.2.1 ≤ p.2.2

instance (f : SafetyFilter) : Decidable f.goodConfig := by
  unfold SafetyFilter.goodConfig
  infer_instance

/-- Value `v` lies inside the operating range configured for channel `key`,
whenever one is configured. -/
def SafetyFilter.inLimits (f : SafetyFilter) (key : String) (v : ℚ) : Prop :=
  ∀ lo hi, lookupKV (replaceDotPos key) f.joint_limits = some (lo, hi) →
    lo ≤ v ∧ v ≤ hi

/-- Every remembered last-emitted value lies inside the configured
operating range of its channel. -/
def SafetyFilter.memOK (f : SafetyFilter) : Prop :=
  ∀ p ∈ f.last_action, f.inLimits p.1 p.2

/-- Operations that clear the emergency-stop flag: `set_e_stop(false)`
and also `reset()` (which sets `_e_stopped = False`). -/
def FilterOp.clearsEStop : FilterOp → Bool
  | .setEStop false => true
  | .reset _ => true
  | _ => false

/-! ## Robot adapters (`lerobot_gui/adapters/robots/…`)

The adapters hold `self._robot`, an underlying `lerobot` robot object.
Its behaviour, as far as the adapter code consults it, is modelled as a
snapshot of data: connection status, the results of its methods, and the
Python truthiness of its `bus` attribute. Raised exceptions are modelled
with `Except String`; an operation that cannot raise returns, besides its
state effect, a `Bool` that is `true` iff an exception escaped. -/

/-- Behavioural snapshot of an underlying robot object (`self._robot`). -/
structure RobotHandle where
  /-- Value of the `is_connected` property of the robot. -/
  is_connected : Bool
  /-- Behaviour of `robot.send_action(action)`. -/
  send_action_result : ActionMap → Except String ActionMap
  /-- Behaviour of `robot.get_observation()` restricted to its numeric
  channels (the generic adapter keeps exactly the numeric items). -/
  get_observation_result : Except String ActionMap
  /-- Whether `robot.disconnect()` raises (the adapters swallow this). -/
  disconnect_raises : Bool
  /-- Python truthiness of `robot.bus` (checked by the Piper adapter). -/
  bus_truthy : Bool
  /-- Values returned by `robot.bus.read()` (joint name ↦ position). -/
  bus_read : ActionMap

/-- Fixed Piper motor order (`MOTOR_ORDER` in `piper_adapter.py`, and the
`motor_order` list in `PiperFollower.send_action`). -/
def MOTOR_ORDER : List String :=
  ["joint_1", "joint_2", "joint_3", "joint_4", "joint_5", "joint_6", "gripper"]

/-- State of a `PiperFollower` robot
(`src/lerobot/robots/piper_follower/piper_follower.py`). `__init__` sets
`_is_connected = False` and always sets `self.bus` to a `PiperMotorsBus`
object. External bus/camera state is carried as data. -/
structure PiperFollower where
  /-- The `_is_connected` flag. -/
  is_connected_flag : Bool
  /-- External `bus.is_connected` (CAN bus state). -/
  bus_is_connected : Bool
  /-- Value of `all(cam.is_connected for cam in self.cameras.values())` (vacuously
  `True` when no cameras are configured). -/
  cams_connected : Bool
  /-- Values `bus.read()` yields (external). -/
  bus_read : ActionMap

/-- Property `PiperFollower.is_connected`:
`self.bus.is_connected and all(cam.is_connected …)`. -/
def PiperFollower.is_connected (r : PiperFollower) : Bool :=
  r.bus_is_connected && r.cams_connected

/-- Method `PiperFollower.send_action`: raises `DeviceNotConnectedError` when the
`_is_connected` flag is clear; otherwise indexes `action[f"{motor}.pos"]`
for each motor (raising `KeyError` on a missing key), writes to the bus
(modelled as succeeding) and returns the action. -/
def PiperFollower.send_action (r : PiperFollower) (action : ActionMap) :
    Except String ActionMap :=
  if r.is_connected_flag = false then .error ("DeviceNotConnectedError")
  else if MOTOR_ORDER.all fun m => (lookupKV (m ++ ".pos") action).isSome then
    .ok action
  else .error ("KeyError")

/-- Method `PiperFollower.get_observation`: raises `DeviceNotConnectedError` when
the `_is_connected` flag is clear; otherwise returns the bus state as
`{joint}.pos` channels (camera images are non-numeric and dropped by the
numeric filter of the generic adapter, so they are not modelled). -/
def PiperFollower.get_observation (r : PiperFollower) : Except String ActionMap :=
  if r.is_connected_flag = false then .error ("DeviceNotConnectedError")
  else .ok (r.bus_read.map fun kv => (kv.1 ++ ".pos", kv.2))

/-- The behavioural snapshot an adapter sees when holding a
`PiperFollower`; in particular `bus_truthy` is `true` because `__init__`
always assigns a `PiperMotorsBus` object to `self.bus`. -/
def PiperFollower.toHandle (r : PiperFollower) : RobotHandle :=
  { is_connected := r.is_connected
    send_action_result := r.send_action
    get_observation_result := r.get_observation
    disconnect_raises := false
    bus_truthy := true
    bus_read := r.bus_read }

/-- A freshly constructed `PiperFollower` (the state right after
`self._robot = PiperFollower(config)` inside the `connect` of an adapter,
before — or after a failed — `self._robot.connect()`): the
`_is_connected` flag is `False` and the CAN bus is not connected. -/
def piperFollowerFresh : PiperFollower :=
  { is_connected_flag := false
    bus_is_connected := false
    cams_connected := true
    bus_read := [] }

/-- State of `GenericRobotAdapter` (`generic_adapter.py`): the optional
handle `self._robot` and `self._robot_type`. -/
structure GenericRobotAdapter where
  robot : Option RobotHandle
  robot_type : String

/-- Property `GenericRobotAdapter.is_connected`:
`self._robot is not None and self._robot.is_connected`. -/
def GenericRobotAdapter.is_connected (a : GenericRobotAdapter) : Bool :=
  match a.robot with
  | none => false
  | some r => r.is_connected

/-- Method `GenericRobotAdapter.send_action`: returns the input unchanged when
`self._robot is None`, else forwards to the robot. -/
def GenericRobotAdapter.send_action (a : GenericRobotAdapter) (action : ActionMap) :
    Except String ActionMap :=
  match a.robot with
  | none => .ok action
  | some r => r.send_action_result action

/-- Method `GenericRobotAdapter.get_state`: `{}` when `self._robot is None`, else
the numeric channels of `self._robot.get_observation()`. -/
def GenericRobotAdapter.get_state (a : GenericRobotAdapter) : Except String ActionMap :=
  match a.robot with
  | none => .ok []
  | some r => r.get_observation_result

/-- Method `GenericRobotAdapter.emergency_stop`: a no-op when `self._robot is
None`; otherwise calls `self._robot.disconnect()` inside
`try/except/finally`, so any exception is logged and swallowed and
`self._robot = None` always runs. The `Bool` is `true` iff an exception
escaped (never). -/
def GenericRobotAdapter.emergency_stop (a : GenericRobotAdapter) :
    GenericRobotAdapter × Bool :=
  match a.robot with
  | none => (a, false)
  | some _ => ({ a with robot := none }, false)

/-- State of `PiperRobotAdapter` (`piper_adapter.py`). -/
structure PiperRobotAdapter where
  robot : Option RobotHandle

/-- Property `PiperRobotAdapter.is_connected`. -/
def PiperRobotAdapter.is_connected (a : PiperRobotAdapter) : Bool :=
  match a.robot with
  | none => false
  | some r => r.is_connected

/-- Method `PiperRobotAdapter.send_action`: returns the input unchanged when
`self._robot` is falsy (`None`), else forwards to the robot. -/
def PiperRobotAdapter.send_action (a : PiperRobotAdapter) (action : ActionMap) :
    Except String ActionMap :=
  match a.robot with
  | none => .ok action
  | some r => r.send_action_result action

/-- Method `PiperRobotAdapter.get_state`: `{}` when `self._robot` is falsy, else
`{f"{k}.pos": float(v)}` over `self._robot.bus.read()`. -/
def PiperRobotAdapter.get_state (a : PiperRobotAdapter) : Except String ActionMap :=
  match a.robot with
  | none => .ok []
  | some r => .ok (r.bus_read.map fun kv => (kv.1 ++ ".pos", kv.2))

/-- Method `PiperRobotAdapter.emergency_stop`: guarded by
`if self._robot and self._robot.bus:`; inside, the direct bus commands
run under `try/except` (exceptions logged and swallowed) and then
`self._robot = None` unconditionally. The `Bool` is `true` iff an
exception escaped (never). -/
def PiperRobotAdapter.emergency_stop (a : PiperRobotAdapter) :
    PiperRobotAdapter × Bool :=
  match a.robot with
  | none => (a, false)
  | some r => if r.bus_truthy then (⟨none⟩, false) else (a, false)

theorem pymax_eq_max (a b : ℚ) : pymax a b = max a b := by
  unfold pymax
  rcases lt_or_le a b with h | h
  · rw [if_pos h, max_eq_right h.le]
  · rw [if_neg (not_lt_of_le h), max_eq_left h]

theorem pymin_eq_min (a b : ℚ) : pymin a b = min a b := by
  unfold pymin
  rcases lt_or_le b a with h | h
  · rw [if_pos h, min_eq_right h.le]
  · rw [if_neg (not_lt_of_le h), min_eq_left h]

theorem pyabs_eq_abs (q : ℚ) : pyabs q = |q| := by
  rw [pyabs]
  rcases lt_or_le q 0 with h | h
  · rw [if_pos h, abs_of_neg h]
  · rw [if_neg (not_lt_of_le h), abs_of_nonneg h]

example : replaceDotPos ("joint_1.pos") = "joint_1" := by decide
example : lookupKV ("a") [("b", (1 : ℚ)), ("a", 2)] = some 2 := by decide

-- Scenario from the spec: `velocity_limit=0.5`, inputs 10.0, 10.3, 11.5
-- on channel `j` give 10.0, 10.3, 10.8.
example :
    let f0 := SafetyFilter.init [] (1/2) (1/1000) 500 0
    let r1 := f0.filter_action 1 [("j", 10)]
    let r2 := r1.2.filter_action 2 [("j", 103/10)]
    let r3 := r2.2.filter_action 3 [("j", 115/10)]
    r1.1 = some [("j", 10)] ∧ r2.1 = some [("j", 103/10)] ∧
      r3.1 = some [("j", 108/10)] := by decide

-- Scenario from the spec: joint range [-1.6, 1.6]; input 2.0 → output 1.6.
example :
    ((SafetyFilter.init [("j", -16/10, 16/10)] (1/2) (1/1000) 500 0).filter_action 1
      [("j.pos", 2)]).1 = some [("j.pos", 16/10)] := by decide

/-! ### Association-list lemmas -/

theorem lookupKV_mem {α : Type} {k : String} {v : α} {l : List (String × α)}
    (h : lookupKV k l = some v) : (k, v) ∈ l := by
  induction l with
  | nil => simp [lookupKV] at h
  | cons p rest ih =>
    obtain ⟨k', v'⟩ := p
    rw [lookupKV] at h
    by_cases hk : k' = k
    · rw [if_pos hk] at h
      subst hk
      injection h with h
      subst h
      exact List.mem_cons_self _ _
    · rw [if_neg hk] at h
      exact List.mem_cons_of_mem _ (ih h)

theorem lookupKV_map (g : String → ℚ → ℚ) (k : String) (l : ActionMap) :
    lookupKV k (l.map fun kv => (kv.1, g kv.1 kv.2)) = (lookupKV k l).map (g k) := by
  induction l with
  | nil => rfl
  | cons p rest ih =>
    obtain ⟨k', v'⟩ := p
    simp only [List.map_cons, lookupKV]
    by_cases hk : k' = k
    · subst hk
      rw [if_pos rfl, if_pos rfl]
      rfl
    · rw [if_neg hk, if_neg hk, ih]

/-! ### Bounds for the three per-channel stages -/

theorem clamp_le (lo hi v : ℚ) (h : lo ≤ hi) :
    lo ≤ pymax lo (pymin hi v) ∧ pymax lo (pymin hi v) ≤ hi := by
  rw [pymax_eq_max, pymin_eq_min]
  exact ⟨le_max_left _ _, max_le h (min_le_left _ _)⟩

theorem clamp_dist_le (lo hi last v : ℚ) (hlo : lo ≤ last) (hhi : last ≤ hi) :
    |pymax lo (pymin hi v) - last| ≤ |v - last| := by
  rw [pymax_eq_max, pymin_eq_min]
  have ha : v - last ≤ |v - last| := le_abs_self _
  have hb : -(v - last) ≤ |v - last| := neg_le_abs _
  have h0 : (0 : ℚ) ≤ |v - last| := abs_nonneg _
  have h1 : max lo (min hi v) ≤ max last v :=
    max_le_max hlo (min_le_right hi v)
  have h2 : min last v ≤ max lo (min hi v) :=
    le_trans (min_le_min hhi (le_refl v)) (le_max_right lo (min hi v))
  have h3 : max last v ≤ last + |v - last| := max_le (by linarith) (by linarith)
  have h4 : last - |v - last| ≤ min last v := le_min (by linarith) (by linarith)
  rw [abs_le]
  constructor <;> linarith

theorem SafetyFilter.clampValue_inLimits (f : SafetyFilter) (k : String) (v : ℚ)
    (lo hi : ℚ) (hlk : lookupKV (replaceDotPos k) f.joint_limits = some (lo, hi))
    (hlohi : lo ≤ hi) :
    lo ≤ f.clampValue k v ∧ f.clampValue k v ≤ hi := by
  unfold SafetyFilter.clampValue
  rw [hlk]
  exact clamp_le lo hi v hlohi

theorem SafetyFilter.clampValue_dist_le (f : SafetyFilter) (k : String) (v last : ℚ)
    (hin : ∀ lo hi, lookupKV (replaceDotPos k) f.joint_limits = some (lo, hi) →
      lo ≤ last ∧ last ≤ hi) :
    |f.clampValue k v - last| ≤ |v - last| := by
  unfold SafetyFilter.clampValue
  cases hlk : lookupKV (replaceDotPos k) f.joint_limits with
  | none => exact le_refl _
  | some lohi =>
    obtain ⟨hlo, hhi⟩ := hin lohi.1 lohi.2 (by rw [hlk])
    exact clamp_dist_le lohi.1 lohi.2 last v hlo hhi

theorem SafetyFilter.velValue_dist_le (f : SafetyFilter) (k : String) (v last : ℚ)
    (hl : lookupKV k f.last_action = some last) (hmv : 0 ≤ f.max_velocity) :
    |f.velValue k v - last| ≤ f.max_velocity := by
  simp only [SafetyFilter.velValue, hl]
  by_cases h : pyabs (v - last) > f.max_velocity
  · rw [if_pos h]
    by_cases hd : v - last > 0
    · rw [if_pos hd, mul_one, add_sub_cancel_left, abs_of_nonneg hmv]
    · rw [if_neg hd, mul_neg_one, add_sub_cancel_left, abs_neg, abs_of_nonneg hmv]
  · rw [if_neg h]
    rw [pyabs_eq_abs] at h
    exact le_of_not_lt h

theorem SafetyFilter.velValue_inLimits (f : SafetyFilter) (k : String) (v last : ℚ)
    (hl : lookupKV k f.last_action = some last) (hmv : 0 ≤ f.max_velocity)
    (lo hi : ℚ) (hv : lo ≤ v ∧ v ≤ hi) (hlast : lo ≤ last ∧ last ≤ hi) :
    lo ≤ f.velValue k v ∧ f.velValue k v ≤ hi := by
  simp only [SafetyFilter.velValue, hl]
  by_cases h : pyabs (v - last) > f.max_velocity
  · rw [if_pos h, pyabs_eq_abs] at *
    by_cases hd : v - last > 0
    · rw [if_pos hd, mul_one]
      rw [abs_of_pos hd] at h
      exact ⟨by linarith [hlast.1], by linarith [hv.2]⟩
    · rw [if_neg hd, mul_neg_one]
      push_neg at hd
      rw [abs_of_nonpos (by linarith)] at h
      exact ⟨by linarith [hv.1], by linarith [hlast.2]⟩
  · rw [if_neg h]
    exact hv

theorem SafetyFilter.dzValue_eq_or (f : SafetyFilter) (k : String) (v last : ℚ)
    (hl : lookupKV k f.last_action = some last) :
    f.dzValue k v = last ∨ f.dzValue k v = v := by
  simp only [SafetyFilter.dzValue, hl]
  by_cases h : pyabs (v - last) < f.deadzone
  · rw [if_pos h]; exact Or.inl rfl
  · rw [if_neg h]; exact Or.inr rfl

theorem SafetyFilter.filterValue_inLimits (f : SafetyFilter)
    (hcfg : f.goodConfig) (hmem : f.memOK) (k : String) (v : ℚ) :
    f.inLimits k (f.filterValue k v) := by
  intro lo hi hlk
  have hlohi : lo ≤ hi := hcfg.2 _ (lookupKV_mem hlk)
  have hc := f.clampValue_inLimits k v lo hi hlk hlohi
  unfold SafetyFilter.filterValue
  cases hl : lookupKV k f.last_action with
  | none =>
    simp only [SafetyFilter.dzValue, SafetyFilter.velValue, hl]
    exact hc
  | some last =>
    have hlast := hmem _ (lookupKV_mem hl) lo hi hlk
    have hv := f.velValue_inLimits k (f.clampValue k v) last hl hcfg.1 lo hi hc hlast
    rcases f.dzValue_eq_or k (f.velValue k (f.clampValue k v)) last hl with h | h <;>
      rw [h]
    · exact hlast
    · exact hv

/-! ### Preservation of configuration and the invariant along a run -/

theorem SafetyFilter.step_config (f : SafetyFilter) (op : FilterOp) :
    (f.step op).joint_limits = f.joint_limits ∧
    (f.step op).max_velocity = f.max_velocity ∧
    (f.step op).deadzone = f.deadzone ∧
    (f.step op).enabled = f.enabled := by
  cases op with
  | filter now a =>
    simp only [SafetyFilter.step, SafetyFilter.filter_action]
    split_ifs <;> exact ⟨rfl, rfl, rfl, rfl⟩
  | setEStop b => exact ⟨rfl, rfl, rfl, rfl⟩
  | reset now => exact ⟨rfl, rfl, rfl, rfl⟩

theorem SafetyFilter.run_cons (f : SafetyFilter) (op : FilterOp) (ops : List FilterOp) :
    f.run (op :: ops) = (f.step op).run ops := rfl

theorem SafetyFilter.run_config (f : SafetyFilter) (ops : List FilterOp) :
    (f.run ops).joint_limits = f.joint_limits ∧
    (f.run ops).max_velocity = f.max_velocity ∧
    (f.run ops).deadzone = f.deadzone ∧
    (f.run ops).enabled = f.enabled := by
  induction ops generalizing f with
  | nil => exact ⟨rfl, rfl, rfl, rfl⟩
  | cons op rest ih =>
    obtain ⟨h1, h2, h3, h4⟩ := f.step_config op
    obtain ⟨g1, g2, g3, g4⟩ := ih (f.step op)
    rw [SafetyFilter.run_cons]
    exact ⟨g1.trans h1, g2.trans h2, g3.trans h3, g4.trans h4⟩

theorem SafetyFilter.goodConfig_run (f : SafetyFilter) (ops : List FilterOp)
    (hcfg : f.goodConfig) : (f.run ops).goodConfig := by
  obtain ⟨h1, h2, _, _⟩ := f.run_config ops
  exact ⟨h2 ▸ hcfg.1, h1 ▸ hcfg.2⟩

theorem SafetyFilter.memOK_step (f : SafetyFilter) (op : FilterOp)
    (hcfg : f.goodConfig) (hmem : f.memOK) : (f.step op).memOK := by
  have hlim : (f.step op).joint_limits = f.joint_limits := (f.step_config op).1
  cases op with
  | filter now a =>
    show (f.filter_action now a).2.memOK
    unfold SafetyFilter.memOK SafetyFilter.inLimits at *
    unfold SafetyFilter.filter_action
    split_ifs with h1 h2
    · exact hmem
    · exact hmem
    · intro p hp
      simp only [List.mem_map] at hp
      obtain ⟨kv, _, rfl⟩ := hp
      exact f.filterValue_inLimits hcfg hmem kv.1 kv.2
  | setEStop b => exact hmem
  | reset now => intro p hp; cases hp

theorem SafetyFilter.memOK_run (f : SafetyFilter) (ops : List FilterOp)
    (hcfg : f.goodConfig) (hmem : f.memOK) : (f.run ops).memOK := by
  induction ops generalizing f with
  | nil => exact hmem
  | cons op rest ih =>
    rw [SafetyFilter.run_cons]
    exact ih (f.step op) (by
      obtain ⟨h1, h2, _, _⟩ := f.step_config op
      exact ⟨h2 ▸ hcfg.1, h1 ▸ hcfg.2⟩) (f.memOK_step op hcfg hmem)

/-! ### Claim C1 -/

/-- C1: for every channel that has a configured operating range
`[lo, hi]` in `joint_limits` (ranges nonempty, velocity limit a
nonnegative magnitude, as `goodConfig` states), after any sequence of
operations on a freshly constructed `SafetyFilter`, every value emitted
for that channel by a `filter_action` call that returns a filtered
action lies within `[lo, hi]`. -/
theorem SafetyFilter.filter_output_in_joint_limits
    (joint_limits : List (String × ℚ × ℚ)) (mv dz tms t0 : ℚ)
    (hcfg : (SafetyFilter.init joint_limits mv dz tms t0).goodConfig)
    (ops : List FilterOp) (now : ℚ) (action : ActionMap) (out : ActionMap)
    (hout : (((SafetyFilter.init joint_limits mv dz tms t0).run ops).filter_action
      now action).1 = some out)
    (p : String × ℚ) (hp : p ∈ out)
    (lo hi : ℚ) (hlk : lookupKV (replaceDotPos p.1) joint_limits = some (lo, hi)) :
    lo ≤ p.2 ∧ p.2 ≤ hi := by
  set f0 := SafetyFilter.init joint_limits mv dz tms t0 with hf0
  set f := f0.run ops with hf
  have hmem : f.memOK := f0.memOK_run ops hcfg (by intro q hq; cases hq)
  have hgood : f.goodConfig := f0.goodConfig_run ops hcfg
  have hen : f.enabled = true := (f0.run_config ops).2.2.2
  have hlim : f.joint_limits = joint_limits := (f0.run_config ops).1
  unfold SafetyFilter.filter_action at hout
  by_cases hes : f.e_stopped
  · rw [if_pos hes] at hout
    cases hout
  · rw [if_neg hes, hen, if_neg (by decide : ¬(true = false))] at hout
    injection hout with hout
    subst hout
    obtain ⟨kv, _, rfl⟩ := List.mem_map.1 hp
    exact f.filterValue_inLimits hgood hmem kv.1 kv.2 lo hi (by rw [hlim]; exact hlk)

/-- Witness for C1 at a concrete run: limits `j ↦ [0, 1]`, input `2`
emits `1`, which the theorem places in `[0, 1]`. -/
theorem SafetyFilter.filter_output_in_joint_limits_witness :
    (0 : ℚ) ≤ 1 ∧ (1 : ℚ) ≤ 1 :=
  SafetyFilter.filter_output_in_joint_limits [("j", 0, 1)] (1/2) (1/1000) 500 0
    (by decide) [] 1 [("j.pos", 2)] [("j.pos", 1)] (by decide) ("j.pos", 1)
    (by decide) 0 1 (by decide)

/-! ### Claim C2 -/

/-- C2 counterexample: after `set_e_stop(true)`, with no
`set_e_stop(false)` call ever made, a `reset()` already un-trips the
filter, so a subsequent `filter_action` does **not** return the
`no action` signal — the clause `until set_e_stop(false)` of the claim is too strong. -/
theorem SafetyFilter.e_stop_until_counterexample :
    ((((SafetyFilter.init [] (1/2) (1/1000) 500 0).set_e_stop true).reset 1).filter_action
      2 [("a", 1)]).1 ≠ none := by decide

/-- C2 amended: after `set_e_stop(true)`, every subsequent
`filter_action` call returns the `no action` signal (`none`) until
`set_e_stop(false)` **or `reset()`** is called. -/
theorem SafetyFilter.e_stop_blocks_until_cleared (f : SafetyFilter)
    (hf : f.e_stopped = true) (ops : List FilterOp)
    (hops : ∀ op ∈ ops, op.clearsEStop = false) :
    (f.run ops).e_stopped = true ∧
    ∀ now action, ((f.run ops).filter_action now action).1 = none := by
  have key : (f.run ops).e_stopped = true := by
    induction ops generalizing f with
    | nil => exact hf
    | cons op rest ih =>
      rw [SafetyFilter.run_cons]
      refine ih (f.step op) ?_ ?_
      · cases op with
        | filter now a =>
          simp only [SafetyFilter.step, SafetyFilter.filter_action, hf, if_true]
        | setEStop b =>
          have hb := hops (.setEStop b) (List.mem_cons_self _ _)
          cases b with
          | false => simp [FilterOp.clearsEStop] at hb
          | true => rfl
        | reset now =>
          have hb := hops (.reset now) (List.mem_cons_self _ _)
          simp [FilterOp.clearsEStop] at hb
      · intro op2 hop2
        exact hops op2 (List.mem_cons_of_mem _ hop2)
  refine ⟨key, fun now action => ?_⟩
  simp only [SafetyFilter.filter_action, key, if_true]

/-- Witness for the amended C2: tripped filter, two further operations
(one filter call and a redundant `set_e_stop(true)`), the next
`filter_action` still yields `none`. -/
theorem SafetyFilter.e_stop_blocks_until_cleared_witness :
    ((((SafetyFilter.init [] (1/2) (1/1000) 500 0).set_e_stop true).run
      [FilterOp.filter 1 [("a", 1)], FilterOp.setEStop true]).filter_action
      5 [("b", 2)]).1 = none :=
  (SafetyFilter.e_stop_blocks_until_cleared
    ((SafetyFilter.init [] (1/2) (1/1000) 500 0).set_e_stop true) (by decide)
    [FilterOp.filter 1 [("a", 1)], FilterOp.setEStop true] (by decide)).2 5 [("b", 2)]

/-! ### Claim C3 -/

/-- C3 counterexample, two independent refutations.

First conjunct: with `max_velocity = 1/2`, channel `j` emits `0`, then an
action without `j` is filtered (wiping the per-channel memory), then `j`
emits `10`: two consecutive emitted values for `j` differ by `10 > 1/2`.

Second conjunct: with `deadzone = 1 > max_velocity = 1/2` and previous
value `0`, raw input `10` has delta exceeding the limit, yet the emitted
value is `0` (the deadzone snaps the rate-limited value back), not
`previous + max_velocity = 1/2`. -/
theorem SafetyFilter.velocity_limit_counterexample :
    (((SafetyFilter.init [] (1/2) (1/1000) 500 0).filter_action 1 [("j", 0)]).1 =
        some [("j", 0)]
      ∧ (((SafetyFilter.init [] (1/2) (1/1000) 500 0).filter_action 1
          [("j", 0)]).2.filter_action 2 [("k", 5)]).1 = some [("k", 5)]
      ∧ ((((SafetyFilter.init [] (1/2) (1/1000) 500 0).filter_action 1
          [("j", 0)]).2.filter_action 2 [("k", 5)]).2.filter_action 3
          [("j", 10)]).1 = some [("j", 10)]
      ∧ ¬(|(10 : ℚ) - 0| ≤ 1/2))
    ∧ ((((SafetyFilter.init [] (1/2) 1 500 0).filter_action 1 [("j", 0)]).1 =
          some [("j", 0)])
      ∧ ((((SafetyFilter.init [] (1/2) 1 500 0).filter_action 1
          [("j", 0)]).2.filter_action 2 [("j", 10)]).1 = some [("j", 0)])
      ∧ ¬((0 : ℚ) = 0 + (1/2) * 1)) := by decide

/-- C3 amended: restricted to a channel still present in the
per-channel memory of the filter (it was in the immediately preceding returned action):
the emitted value differs from the remembered previous value by at most
`max_velocity` (a nonnegative magnitude); and when additionally
`deadzone ≤ max_velocity` and the post-clamp delta exceeds the limit,
the emitted value is exactly `previous ± max_velocity` with the sign of
that delta. -/
theorem SafetyFilter.velocity_limit_consecutive (f : SafetyFilter)
    (hen : f.enabled = true) (hmv : 0 ≤ f.max_velocity)
    (now : ℚ) (action out : ActionMap)
    (hout : (f.filter_action now action).1 = some out)
    (k : String) (v v' last : ℚ)
    (hv : lookupKV k action = some v)
    (hv' : lookupKV k out = some v')
    (hlast : lookupKV k f.last_action = some last) :
    |v' - last| ≤ f.max_velocity ∧
    (f.deadzone ≤ f.max_velocity →
      pyabs (f.clampValue k v - last) > f.max_velocity →
      v' = last + f.max_velocity *
        (if f.clampValue k v - last > 0 then 1 else -1)) := by
  unfold SafetyFilter.filter_action at hout
  by_cases hes : f.e_stopped
  · rw [if_pos hes] at hout
    cases hout
  · rw [if_neg hes, hen, if_neg (by decide : ¬(true = false))] at hout
    injection hout with hout
    subst hout
    rw [lookupKV_map f.filterValue k action, hv] at hv'
    injection hv' with hv'
    subst hv'
    constructor
    · have hw := f.velValue_dist_le k (f.clampValue k v) last hlast hmv
      rcases f.dzValue_eq_or k (f.velValue k (f.clampValue k v)) last hlast with h | h <;>
        unfold SafetyFilter.filterValue <;> rw [h]
      · rw [sub_self, abs_zero]
        exact hmv
      · exact hw
    · intro hdzmv hgt
      have hw : f.velValue k (f.clampValue k v) =
          last + f.max_velocity * (if f.clampValue k v - last > 0 then 1 else -1) := by
        simp only [SafetyFilter.velValue, hlast, if_pos hgt]
      unfold SafetyFilter.filterValue
      rw [hw]
      simp only [SafetyFilter.dzValue, hlast]
      have hne : ¬(pyabs (last + f.max_velocity *
          (if f.clampValue k v - last > 0 then 1 else -1) - last) < f.deadzone) := by
        have harith : last + f.max_velocity *
            (if f.clampValue k v - last > 0 then 1 else -1) - last =
            f.max_velocity * (if f.clampValue k v - last > 0 then 1 else -1) := by
          ring
        rw [harith, pyabs_eq_abs, abs_mul, abs_of_nonneg hmv]
        by_cases hs : f.clampValue k v - last > 0
        · rw [if_pos hs, abs_one, mul_one]
          exact not_lt_of_le hdzmv
        · rw [if_neg hs, abs_neg, abs_one, mul_one]
          exact not_lt_of_le hdzmv
      rw [if_neg hne]

/-- Witness for the amended C3: previous value `0` for channel `j`,
`max_velocity = 1/2`, input `10`: the emitted value `1/2` is within the
velocity limit of the previous value. -/
theorem SafetyFilter.velocity_limit_consecutive_witness :
    |(1/2 : ℚ) - 0| ≤ (1/2 : ℚ) :=
  (SafetyFilter.velocity_limit_consecutive
    ⟨[], 1/2, 1/1000, 500, [("j", 0)], 0, true, false⟩ (by decide) (by decide)
    7 [("j", 10)] [("j", 1/2)] (by decide) "j" 10 (1/2) 0
    (by decide) (by decide) (by decide)).1

/-! ### Claim C4 -/

/-- C4: on a well-configured filter (`goodConfig`), whenever a previous
emitted value `last` exists for a channel and the raw input for that
channel is within the deadzone of `last`, the value emitted by
`filter_action` for that channel is exactly `last`. -/
theorem SafetyFilter.deadzone_repeats_previous
    (joint_limits : List (String × ℚ × ℚ)) (mv dz tms t0 : ℚ)
    (hcfg : (SafetyFilter.init joint_limits mv dz tms t0).goodConfig)
    (ops : List FilterOp) (now : ℚ) (action out : ActionMap)
    (hout : (((SafetyFilter.init joint_limits mv dz tms t0).run ops).filter_action
      now action).1 = some out)
    (k : String) (raw last : ℚ)
    (hraw : lookupKV k action = some raw)
    (hlast : lookupKV k
      ((SafetyFilter.init joint_limits mv dz tms t0).run ops).last_action = some last)
    (hdz : |raw - last| < dz) :
    lookupKV k out = some last := by
  set f0 := SafetyFilter.init joint_limits mv dz tms t0 with hf0
  set f := f0.run ops with hf
  have hmem : f.memOK := f0.memOK_run ops hcfg (by intro q hq; cases hq)
  have hgood : f.goodConfig := f0.goodConfig_run ops hcfg
  have hen : f.enabled = true := (f0.run_config ops).2.2.2
  have hdzeq : f.deadzone = dz := (f0.run_config ops).2.2.1
  have hmv : 0 ≤ f.max_velocity := hgood.1
  have hinl : f.inLimits k last := hmem _ (lookupKV_mem hlast)
  have hcd : |f.clampValue k raw - last| < f.deadzone :=
    lt_of_le_of_lt (f.clampValue_dist_le k raw last hinl) (by rw [hdzeq]; exact hdz)
  have hw : |f.velValue k (f.clampValue k raw) - last| < f.deadzone := by
    by_cases hgt : pyabs (f.clampValue k raw - last) > f.max_velocity
    · simp only [SafetyFilter.velValue, hlast, if_pos hgt]
      rw [pyabs_eq_abs] at hgt
      have harith : last + f.max_velocity *
          (if f.clampValue k raw - last > 0 then 1 else -1) - last =
          f.max_velocity * (if f.clampValue k raw - last > 0 then 1 else -1) := by
        ring
      rw [harith, abs_mul, abs_of_nonneg hmv]
      by_cases hs : f.clampValue k raw - last > 0
      · rw [if_pos hs, abs_one, mul_one]
        exact lt_trans hgt hcd
      · rw [if_neg hs, abs_neg, abs_one, mul_one]
        exact lt_trans hgt hcd
    · simp only [SafetyFilter.velValue, hlast, if_neg hgt]
      exact hcd
  have hfin : f.filterValue k raw = last := by
    unfold SafetyFilter.filterValue SafetyFilter.dzValue
    simp only [hlast]
    have hcond : pyabs (f.velValue k (f.clampValue k raw) - last) < f.deadzone := by
      rw [pyabs_eq_abs]
      exact hw
    rw [if_pos hcond]
  unfold SafetyFilter.filter_action at hout
  by_cases hes : f.e_stopped
  · rw [if_pos hes] at hout
    cases hout
  · rw [if_neg hes, hen, if_neg (by decide : ¬(true = false))] at hout
    injection hout with hout
    subst hout
    rw [lookupKV_map f.filterValue k action, hraw]
    show some (f.filterValue k raw) = some last
    rw [hfin]

/-- Witness for C4: previous value `1/2` for `j.pos`, deadzone `1/10`,
raw input `21/40` (within the deadzone): the emitted value is `1/2`. -/
theorem SafetyFilter.deadzone_repeats_previous_witness :
    lookupKV ("j.pos") [("j.pos", (1/2 : ℚ))] = some (1/2 : ℚ) :=
  SafetyFilter.deadzone_repeats_previous [("j", 0, 1)] (1/2) (1/10) 500 0
    (by decide) [FilterOp.filter 1 [("j.pos", 1/2)]] 2 [("j.pos", 21/40)]
    [("j.pos", 1/2)] (by decide) "j.pos" (21/40) (1/2) (by decide) (by decide)
    (by decide)

/-! ### Claims C9 and C10 -/

/-- On an armed, enabled filter, `filter_action` returns the per-channel
filtered action and replaces the per-channel memory with it wholesale. -/
theorem SafetyFilter.filter_action_armed (f : SafetyFilter)
    (hes : f.e_stopped = false) (hen : f.enabled = true)
    (now : ℚ) (action : ActionMap) :
    f.filter_action now action =
      (some (action.map fun kv => (kv.1, f.filterValue kv.1 kv.2)),
       { f with last_input_time := now,
                last_action := action.map fun kv => (kv.1, f.filterValue kv.1 kv.2) }) := by
  unfold SafetyFilter.filter_action
  simp [hes, hen]

/-- C9: `reset()` clears the emergency-stop flag and all per-channel
memory, so the next `filter_action` call applies no velocity limiting and
no deadzone against any pre-reset value — its output is exactly the
per-channel clamp of the input. -/
theorem SafetyFilter.reset_clears_state (f : SafetyFilter) (hen : f.enabled = true)
    (now now2 : ℚ) (action : ActionMap) :
    (f.reset now).e_stopped = false ∧
    (f.reset now).last_action = [] ∧
    ((f.reset now).filter_action now2 action).1 =
      some (action.map fun kv => (kv.1, (f.reset now).clampValue kv.1 kv.2)) := by
  refine ⟨rfl, rfl, ?_⟩
  rw [SafetyFilter.filter_action_armed (f.reset now) rfl hen now2 action]
  rfl

/-- Witness for C9: a tripped filter with remembered value `9` for `x`
and `max_velocity = 1/2`; after `reset()`, input `x = 100` passes through
unconstrained. -/
theorem SafetyFilter.reset_clears_state_witness :
    (((⟨[], 1/2, 1/1000, 500, [("x", 9)], 0, true, true⟩ : SafetyFilter).reset 4).filter_action
      5 [("x", 100)]).1 = some [("x", 100)] :=
  (SafetyFilter.reset_clears_state
    ⟨[], 1/2, 1/1000, 500, [("x", 9)], 0, true, true⟩ rfl 4 5 [("x", 100)]).2.2

/-- C10: every `filter_action` call that returns a filtered action
replaces the entire per-channel memory of the filter with exactly the
channels of the current input: the memory keys become the input keys, and any
channel absent from the input loses its recorded last value. -/
theorem SafetyFilter.filter_action_replaces_memory (f : SafetyFilter)
    (hes : f.e_stopped = false) (hen : f.enabled = true)
    (now : ℚ) (action : ActionMap) :
    (f.filter_action now action).1 =
      some (action.map fun kv => (kv.1, f.filterValue kv.1 kv.2)) ∧
    (f.filter_action now action).2.last_action =
      action.map (fun kv => (kv.1, f.filterValue kv.1 kv.2)) ∧
    (f.filter_action now action).2.last_action.map Prod.fst = action.map Prod.fst ∧
    ∀ k2, lookupKV k2 action = none →
      lookupKV k2 (f.filter_action now action).2.last_action = none := by
  rw [SafetyFilter.filter_action_armed f hes hen now action]
  refine ⟨rfl, rfl, ?_, ?_⟩
  · rw [List.map_map]
    rfl
  · intro k2 h
    show lookupKV k2 (action.map fun kv => (kv.1, f.filterValue kv.1 kv.2)) = none
    rw [lookupKV_map f.filterValue k2 action, h]
    rfl

/-- Witness for C10: after filtering `[("a", 3)]`, the memory holds no
entry for the channel `b` that was present before the call. -/
theorem SafetyFilter.filter_action_replaces_memory_witness :
    lookupKV ("b")
      (((⟨[], 1/2, 1/1000, 500, [("b", 7)], 0, true, false⟩ : SafetyFilter).filter_action
        1 [("a", 3)]).2.last_action) = none :=
  (SafetyFilter.filter_action_replaces_memory
    ⟨[], 1/2, 1/1000, 500, [("b", 7)], 0, true, false⟩ rfl rfl 1 [("a", 3)]).2.2.2
    "b" rfl

/-! ### Claim C5 -/

/-- C5 counterexample: a Piper adapter holding a freshly constructed
(never successfully connected) `PiperFollower` — the state
`self._robot = PiperFollower(config)` leaves behind when
`self._robot.connect()` raises inside `PiperRobotAdapter.connect` — has
`is_connected = False`, yet `send_action({"a": 1})` does not return the
input unchanged: it forwards to `PiperFollower.send_action`, which raises
`DeviceNotConnectedError`. The guard in the code is
`self._robot is None`, not `is_connected`. -/
theorem PiperRobotAdapter.send_action_not_connected_counterexample :
    PiperRobotAdapter.is_connected ⟨some piperFollowerFresh.toHandle⟩ = false ∧
    PiperRobotAdapter.send_action ⟨some piperFollowerFresh.toHandle⟩ [("a", 1)] =
      Except.error ("DeviceNotConnectedError") ∧
    PiperRobotAdapter.send_action ⟨some piperFollowerFresh.toHandle⟩ [("a", 1)] ≠
      Except.ok [("a", 1)] :=
  ⟨rfl, rfl, fun h => Except.noConfusion h⟩

/-- C5 amended: for every robot adapter (generic and Piper) whose
underlying handle is absent (`self._robot is None` — the state after
construction, `disconnect()` or `emergency_stop()`), `send_action`
returns the input action unchanged and raises no exception, for any
input action. -/
theorem send_action_when_handle_absent
    (g : GenericRobotAdapter) (hg : g.robot = none)
    (p : PiperRobotAdapter) (hp : p.robot = none) (action : ActionMap) :
    g.send_action action = Except.ok action ∧
    p.send_action action = Except.ok action := by
  unfold GenericRobotAdapter.send_action PiperRobotAdapter.send_action
  rw [hg, hp]
  exact ⟨rfl, rfl⟩

/-- Witness for the amended C5 on freshly constructed adapters. -/
theorem send_action_when_handle_absent_witness :
    GenericRobotAdapter.send_action ⟨none, "so100_follower"⟩ [("a", 1)] =
      Except.ok [("a", 1)] ∧
    PiperRobotAdapter.send_action ⟨none⟩ [("a", 1)] = Except.ok [("a", 1)] :=
  send_action_when_handle_absent ⟨none, "so100_follower"⟩ rfl ⟨none⟩ rfl [("a", 1)]

/-! ### Claim C6 -/

/-- C6: after `emergency_stop()` returns, the adapter holds no handle and
reports disconnected, and no exception escaped — even when the underlying
disconnect (generic) or bus commands (Piper) raised, since both are
swallowed. For the Piper adapter the hypothesis records that any held
handle has a truthy `bus` attribute, which holds for every handle the
adapter ever acquires because `PiperFollower.__init__` unconditionally
assigns a `PiperMotorsBus` object to `self.bus`. -/
theorem emergency_stop_disconnects
    (g : GenericRobotAdapter) (p : PiperRobotAdapter)
    (hbus : ∀ r, p.robot = some r → r.bus_truthy = true) :
    (g.emergency_stop.1.robot = none ∧ g.emergency_stop.1.is_connected = false ∧
      g.emergency_stop.2 = false) ∧
    (p.emergency_stop.1.robot = none ∧ p.emergency_stop.1.is_connected = false ∧
      p.emergency_stop.2 = false) := by
  obtain ⟨gr, gt⟩ := g
  obtain ⟨pr⟩ := p
  constructor
  · cases gr with
    | none => exact ⟨rfl, rfl, rfl⟩
    | some r => exact ⟨rfl, rfl, rfl⟩
  · cases pr with
    | none => exact ⟨rfl, rfl, rfl⟩
    | some r =>
      have hb := hbus r rfl
      have he : PiperRobotAdapter.emergency_stop ⟨some r⟩ = (⟨none⟩, false) := by
        simp [PiperRobotAdapter.emergency_stop, hb]
      rw [he]
      exact ⟨rfl, rfl, rfl⟩

/-- Witness for C6: both adapters holding a fresh `PiperFollower` handle
are handle-free after `emergency_stop()`. -/
theorem emergency_stop_disconnects_witness :
    ((GenericRobotAdapter.emergency_stop
        ⟨some piperFollowerFresh.toHandle, "piper_follower"⟩).1.robot = none ∧
      (GenericRobotAdapter.emergency_stop
        ⟨some piperFollowerFresh.toHandle, "piper_follower"⟩).1.is_connected = false ∧
      (GenericRobotAdapter.emergency_stop
        ⟨some piperFollowerFresh.toHandle, "piper_follower"⟩).2 = false) ∧
    ((PiperRobotAdapter.emergency_stop ⟨some piperFollowerFresh.toHandle⟩).1.robot =
        none ∧
      (PiperRobotAdapter.emergency_stop
        ⟨some piperFollowerFresh.toHandle⟩).1.is_connected = false ∧
      (PiperRobotAdapter.emergency_stop ⟨some piperFollowerFresh.toHandle⟩).2 =
        false) :=
  emergency_stop_disconnects ⟨some piperFollowerFresh.toHandle, "piper_follower"⟩
    ⟨some piperFollowerFresh.toHandle⟩
    (fun r hr => by cases hr; rfl)

/-! ### Claim C7 -/

/-- C7: `emergency_stop()` is idempotent on both adapters: a second call
in a row leaves the adapter state unchanged and raises no exception. -/
theorem emergency_stop_idempotent (g : GenericRobotAdapter) (p : PiperRobotAdapter) :
    (g.emergency_stop.1).emergency_stop = (g.emergency_stop.1, false) ∧
    (p.emergency_stop.1).emergency_stop = (p.emergency_stop.1, false) := by
  obtain ⟨gr, gt⟩ := g
  obtain ⟨pr⟩ := p
  constructor
  · cases gr with
    | none => rfl
    | some r => rfl
  · cases pr with
    | none => rfl
    | some r =>
      cases hbt : r.bus_truthy with
      | true =>
        have he : PiperRobotAdapter.emergency_stop ⟨some r⟩ = (⟨none⟩, false) := by
          simp [PiperRobotAdapter.emergency_stop, hbt]
        rw [he]
        rfl
      | false =>
        have he : PiperRobotAdapter.emergency_stop ⟨some r⟩ = (⟨some r⟩, false) := by
          simp [PiperRobotAdapter.emergency_stop, hbt]
        rw [he]
        exact he

/-! ### Claim C8 -/

/-- C8 counterexample: a generic adapter holding a freshly constructed
(never successfully connected) `PiperFollower` — reachable because
`PiperFollowerConfig` is registered under `"piper_follower"`, so
`GenericRobotAdapter.connect` can build one, and `self._robot` is
assigned before `self._robot.connect()` can raise — has
`is_connected = False`, yet `get_state()` does not return an empty
mapping: it calls `get_observation()`, which raises
`DeviceNotConnectedError`, i.e. it raises precisely for the reason of
not being connected. The guard in the code is `self._robot is None`. -/
theorem GenericRobotAdapter.get_state_not_connected_counterexample :
    GenericRobotAdapter.is_connected
      ⟨some piperFollowerFresh.toHandle, "piper_follower"⟩ = false ∧
    GenericRobotAdapter.get_state ⟨some piperFollowerFresh.toHandle, "piper_follower"⟩ =
      Except.error ("DeviceNotConnectedError") :=
  ⟨rfl, rfl⟩

/-- C8 amended: for every robot adapter (generic and Piper) whose
underlying handle is absent (`self._robot is None`), `get_state()`
returns an empty mapping and raises nothing. -/
theorem get_state_when_handle_absent
    (g : GenericRobotAdapter) (hg : g.robot = none)
    (p : PiperRobotAdapter) (hp : p.robot = none) :
    g.get_state = Except.ok [] ∧ p.get_state = Except.ok [] := by
  unfold GenericRobotAdapter.get_state PiperRobotAdapter.get_state
  rw [hg, hp]
  exact ⟨rfl, rfl⟩

/-- Witness for the amended C8 on freshly constructed adapters. -/
theorem get_state_when_handle_absent_witness :
    GenericRobotAdapter.get_state ⟨none, ""⟩ = Except.ok [] ∧
    PiperRobotAdapter.get_state ⟨none⟩ = Except.ok [] :=
  get_state_when_handle_absent ⟨none, ""⟩ rfl ⟨none⟩ rfl
